import Mathlib

/-!
Verification of the gridsearch utility (src/scripts/gridsearch.py).

The development shallowly embeds the two functions of the script:

* `param_list` — expansion of a declarative hyperparameter space into the
  list of concrete parameter assignments;
* `gridsearch` — the enumerate/train/evaluate/select loop.

Python dictionaries are modelled as association lists in insertion order
(Python dicts preserve insertion order and have unique keys).  Python
exceptions are modelled with `Except String`.  Floating point arithmetic is
modelled with real arithmetic; the external training libraries (sklearn,
xgboost) are modelled as an abstract `Backend` producing a trained model and
its 0/1 predictions on the training and validation sets.
-/

namespace Gridsearch

/-- A Python dict from parameter name to a single chosen value,
in insertion order. -/
abbrev Assignment (V : Type) := List (String × V)

/-- A Python dict from parameter name to the ordered list of candidate
values, in insertion order. -/
abbrev ParamDict (V : Type) := List (String × List V)

/-- The `candidate_params` argument of `param_list`: either a single dict or
a list of dicts (the code branches on `type(candidate_params) is dict`). -/
inductive CandidateParams (V : Type) where
  | dict (d : ParamDict V)
  | grids (ds : List (ParamDict V))
deriving DecidableEq

/-- Message of the Python ValueError raised by
`keys, values = zip(*cp.items())` when `cp` is the empty dict:
`zip()` of zero iterables is empty, and unpacking it into two names fails. -/
def unpackError : String := "ValueError: not enough values to unpack (expected 2, got 0)"

/-- Embedding of `itertools.product(*values)`: all tuples drawing one element
from each list, right-most list varying fastest. -/
def itProduct {V : Type} : List (List V) → List (List V)
  | [] => [[]]
  | vs :: rest => vs.flatMap (fun v => (itProduct rest).map (fun tl => v :: tl))

/-- Expansion of one non-empty dict, as in the body of `param_list`:
`keys, values = zip(*cp.items())` followed by
`[dict(zip(keys, v)) for v in it.product(*values)]`. -/
def expandDict {V : Type} (d : ParamDict V) : List (Assignment V) :=
  (itProduct (d.map Prod.snd)).map (fun vs => (d.map Prod.fst).zip vs)

/-- The loop of the list branch of `param_list`: `param_list.extend(...)`
applied per dict, raising on an empty dict. -/
def paramListAux {V : Type} : List (ParamDict V) → List (Assignment V) →
    Except String (List (Assignment V))
  | [], acc => Except.ok acc
  | cp :: rest, acc =>
    if cp.isEmpty then Except.error unpackError
    else paramListAux rest (acc ++ expandDict cp)

/-- Embedding of `param_list(candidate_params)` from src/scripts/gridsearch.py:
find all combinations of candidate parameters and return the list of dicts,
raising the unpack ValueError whenever a dict to be destructured is empty. -/
def param_list {V : Type} : CandidateParams V → Except String (List (Assignment V))
  | CandidateParams.dict d =>
    if d.isEmpty then Except.error unpackError else Except.ok (expandDict d)
  | CandidateParams.grids ds => paramListAux ds []

/-- Modelled from the spec (not from the source): the classic nested-loop
Cartesian product of a hyperparameter mapping — keys in declared order,
values in declared order, right-most key varying fastest.  Compared against
the code-derived `expandDict`. -/
def specProduct {V : Type} : ParamDict V → List (Assignment V)
  | [] => [[]]
  | (k, vs) :: rest => vs.flatMap (fun v => (specProduct rest).map (fun tl => (k, v) :: tl))

theorem expandDict_cons {V : Type} (k : String) (vs : List V) (rest : ParamDict V) :
    expandDict ((k, vs) :: rest) =
      vs.flatMap (fun v => (expandDict rest).map (fun tl => (k, v) :: tl)) := by
  simp only [expandDict, itProduct, List.map_cons, List.map_flatMap, List.map_map]
  rfl

/-- The code expansion of a dict agrees with the nested-loop Cartesian
product described by the spec. -/
theorem expandDict_eq_specProduct {V : Type} (d : ParamDict V) :
    expandDict d = specProduct d := by
  induction d with
  | nil => rfl
  | cons e rest ih =>
    obtain ⟨k, vs⟩ := e
    rw [expandDict_cons, specProduct, ih]

/-- Membership characterisation of the nested-loop product: an assignment is
produced exactly when it pairs each declared key, in order, with one of its
declared candidate values. -/
theorem mem_specProduct {V : Type} {d : ParamDict V} {a : Assignment V} :
    a ∈ specProduct d ↔ List.Forall₂ (fun kv e => kv.1 = e.1 ∧ kv.2 ∈ e.2) a d := by
  induction d generalizing a with
  | nil =>
    simp only [specProduct, List.mem_singleton]
    constructor
    · rintro rfl; exact List.Forall₂.nil
    · intro h; cases h; rfl
  | cons e rest ih =>
    obtain ⟨k, vs⟩ := e
    simp only [specProduct, List.mem_flatMap, List.mem_map]
    constructor
    · rintro ⟨v, hv, tl, htl, rfl⟩
      exact List.Forall₂.cons ⟨rfl, hv⟩ (ih.mp htl)
    · intro h
      cases h with
      | cons hkv htl =>
        rename_i kv a'
        refine ⟨kv.2, ?_, a', ih.mpr htl, ?_⟩
        · exact hkv.2
        · obtain ⟨h1, _⟩ := hkv
          obtain ⟨k', v'⟩ := kv
          simp only at h1
          subst h1
          rfl

theorem paramListAux_ok {V : Type} (ds : List (ParamDict V))
    (h : ∀ cp ∈ ds, cp ≠ []) (acc : List (Assignment V)) :
    paramListAux ds acc = Except.ok (acc ++ ds.flatMap expandDict) := by
  induction ds generalizing acc with
  | nil => simp [paramListAux]
  | cons cp rest ih =>
    have hcp : cp ≠ [] := h cp (List.mem_cons_self cp rest)
    have : cp.isEmpty = false := by
      cases cp with
      | nil => exact absurd rfl hcp
      | cons x xs => rfl
    simp only [paramListAux, this, Bool.false_eq_true, if_false]
    rw [ih (fun c hc => h c (List.mem_cons_of_mem cp hc))]
    simp [List.append_assoc]

/-- A hyperparameter value: a number (Python int/float, modelled as a real)
or a string.  These are the value kinds the modelled code paths handle. -/
inductive PVal where
  | num (x : ℝ)
  | str (s : String)

/-- Python dict item assignment `d[k] = v`: an existing key keeps its
position and gets the new value, a new key is appended at the end.
(Python dicts cannot hold duplicate keys, so the map branch touching every
matching entry coincides with Python on all representable dicts.) -/
def dictSet {V : Type} (a : List (String × V)) (k : String) (v : V) : List (String × V) :=
  if a.any (fun e => e.1 == k) then a.map (fun e => if e.1 = k then (k, v) else e)
  else a ++ [(k, v)]

/-- The `stochastic` list of `gridsearch`. -/
def stochastic : List String :=
  ["svc", "logisticregression", "gradientboosting", "adaboost", "randomforest", "xgboost"]

/-- Keys of the `model_dict` dispatch table of `gridsearch`. -/
def modelKeys : List String :=
  ["svc", "lda", "qda", "logisticregression", "randomforest", "gradientboosting",
   "adaboost", "knn"]

/-- Families receiving `n_jobs` in the loop of `gridsearch`. -/
def njobsModels : List String := ["logisticregression", "knn", "randomforest"]

/-- The per-assignment key injections of the `gridsearch` loop: the seed under
`seed` (xgboost) or `random_state` (other stochastic families), `n_jobs` for
the three families taking a worker count, and for xgboost additionally
`nthread` and `objective` (set in the fit branch just before training). -/
def inject (model : String) (rs nj : ℤ) (p : Assignment PVal) : Assignment PVal :=
  let p1 := if stochastic.contains model then
      (if model = "xgboost" then dictSet p "seed" (PVal.num (rs : ℝ))
       else dictSet p "random_state" (PVal.num (rs : ℝ)))
    else p
  let p2 := if njobsModels.contains model then dictSet p1 "n_jobs" (PVal.num (nj : ℝ))
    else p1
  if model = "xgboost" then
    dictSet (dictSet p2 "nthread" (PVal.num (nj : ℝ))) "objective" (PVal.str "binary:logistic")
  else p2

/-- Cells of `confusion_matrix(y, yhat).ravel()` for binary 0/1 labels,
in ravel order (TN, FP, FN, TP); `true` stands for label 1. -/
def confusionCounts (y yhat : List Bool) : ℕ × ℕ × ℕ × ℕ :=
  ((y.zip yhat).countP (fun c => !c.1 && !c.2),
   (y.zip yhat).countP (fun c => !c.1 && c.2),
   (y.zip yhat).countP (fun c => c.1 && !c.2),
   (y.zip yhat).countP (fun c => c.1 && c.2))

/-- Metric `(TN + TP) / (TN + TP + FP + FN)` of the `gridsearch` loop. -/
noncomputable def accuracy (tn fp fn tp : ℝ) : ℝ := (tn + tp) / (tn + tp + fp + fn)

/-- Metric `TP / (TP + FN)` of the `gridsearch` loop. -/
noncomputable def sensitivity (tn fp fn tp : ℝ) : ℝ := tp / (tp + fn)

/-- Metric `TN / (TN + FP)` of the `gridsearch` loop. -/
noncomputable def specificity (tn fp fn tp : ℝ) : ℝ := tn / (tn + fp)

/-- Metric `(TP*TN - FP*FN) / np.sqrt((TP+FP)*(TP+FN)*(TN+FP)*(TN+FN))` of
the `gridsearch` loop. -/
noncomputable def mcc (tn fp fn tp : ℝ) : ℝ :=
  (tp * tn - fp * fn) / Real.sqrt ((tp + fp) * (tp + fn) * (tn + fp) * (tn + fn))

/-- The external training libraries, abstracted: given the family name and
the final (injected) parameter assignment, produce the trained model and its
binary predictions on the training and the validation set.  This covers
`model_dict[model]().set_params(**p).fit(...)` / `xgb.train(...)` together
with the subsequent `predict` calls (including the 0.5 thresholding of the
xgboost branch, which yields 0/1 predictions as well). -/
structure Backend (M : Type) where
  fitPredict : String → Assignment PVal → M × List Bool × List Bool

/-- One row of the `results` table: the (injected) assignment followed by the
eight metrics, plus the trained model of the trial (kept here so the
selection state can be described; the Python row stores only `p` and the
metrics, the model lives in `temp_model`). -/
structure TrialRow (M : Type) where
  p : Assignment PVal
  model : M
  t_acc : ℝ
  t_sens : ℝ
  t_spec : ℝ
  t_mcc : ℝ
  v_acc : ℝ
  v_sens : ℝ
  v_spec : ℝ
  v_mcc : ℝ

/-- Evaluation of one trial: train via the backend, build both confusion
matrices, compute the four metrics on each. -/
noncomputable def runTrial {M : Type} (bk : Backend M) (Yt Yv : List Bool)
    (model : String) (p : Assignment PVal) : TrialRow M :=
  let r := bk.fitPredict model p
  let ct := confusionCounts Yt r.2.1
  let cv := confusionCounts Yv r.2.2
  { p := p
    model := r.1
    t_acc := accuracy ct.1 ct.2.1 ct.2.2.1 ct.2.2.2
    t_sens := sensitivity ct.1 ct.2.1 ct.2.2.1 ct.2.2.2
    t_spec := specificity ct.1 ct.2.1 ct.2.2.1 ct.2.2.2
    t_mcc := mcc ct.1 ct.2.1 ct.2.2.1 ct.2.2.2
    v_acc := accuracy cv.1 cv.2.1 cv.2.2.1 cv.2.2.2
    v_sens := sensitivity cv.1 cv.2.1 cv.2.2.1 cv.2.2.2
    v_spec := specificity cv.1 cv.2.1 cv.2.2.1 cv.2.2.2
    v_mcc := mcc cv.1 cv.2.1 cv.2.2.1 cv.2.2.2 }

open Classical in
/-- The running-best update of the loop:
`if v_mcc > best_mcc: best_model = deepcopy(temp_model); best_mcc = v_mcc`.
The state is `(best_mcc, best_model)`; `best_model` starts out unbound,
modelled as `Option.none`. -/
noncomputable def bestStep {M : Type} (st : ℝ × Option M) (x : M × ℝ) : ℝ × Option M :=
  if x.2 > st.1 then (x.2, Option.some x.1) else st

/-- The selection result of running the best-update over a list of
(model, validation MCC) pairs from the initial state `best_mcc = -1`,
`best_model` unbound. -/
noncomputable def selectBest {M : Type} (l : List (M × ℝ)) : Option M :=
  (l.foldl bestStep (-1, Option.none)).2

/-- Message of the Python KeyError raised by `model_dict[model]` for a family
absent from the dispatch table. -/
def keyErrorMsg (model : String) : String := "KeyError: " ++ model

/-- Message of the Python NameError raised by `return results, best_model`
when no trial ever promoted a model. -/
def nameErrorMsg : String := "NameError: best_model is not defined"

/-- Message of the pandas IndexError raised by `results.iloc[0, 1:]` on an
empty results table. -/
def indexErrorMsg : String := "IndexError: single positional indexer is out-of-bounds"

/-- Message of the Python TypeError raised by
`params of scale_pos_weight assignment` when `params` is a list, not a dict. -/
def typeErrorMsg : String := "TypeError: list indices must be integers or slices, not str"

open Classical in
/-- One iteration of the `for p in params` loop: inject the per-family keys,
look the family up in the dispatch table (KeyError when absent and not
xgboost), run the trial, update the running best and append the result row. -/
noncomputable def trialStep {M : Type} (bk : Backend M) (Yt Yv : List Bool) (model : String)
    (rs nj : ℤ) (st : ℝ × Option M × List (TrialRow M)) (p0 : Assignment PVal) :
    Except String (ℝ × Option M × List (TrialRow M)) :=
  let p := inject model rs nj p0
  if model = "xgboost" ∨ modelKeys.contains model then
    let row := runTrial bk Yt Yv model p
    let st' := bestStep (st.1, st.2.1) (row.model, row.v_mcc)
    Except.ok (st'.1, st'.2, st.2.2 ++ [row])
  else Except.error (keyErrorMsg model)

/-- The `for p in params` loop itself. -/
noncomputable def trialLoop {M : Type} (bk : Backend M) (Yt Yv : List Bool) (model : String)
    (rs nj : ℤ) : List (Assignment PVal) → (ℝ × Option M × List (TrialRow M)) →
    Except String (ℝ × Option M × List (TrialRow M))
  | [], st => Except.ok st
  | p :: rest, st =>
    match trialStep bk Yt Yv model rs nj st p with
    | Except.error e => Except.error e
    | Except.ok st' => trialLoop bk Yt Yv model rs nj rest st'

/-- Ascending order on result rows by validation MCC. -/
def rowLe {M : Type} (a b : TrialRow M) : Prop := a.v_mcc ≤ b.v_mcc

/-- Ascending comparisons on rows are made decidable classically (numpy
compares floats natively). -/
noncomputable instance decRowLe {M : Type} : DecidableRel (@rowLe M) :=
  fun _ _ => Classical.propDecidable _

/-- Embedding of `results.sort_values(given validation_mcc, ascending=False)`:
pandas `nargsort` reverses the key column together with the row positions,
computes an ascending argsort of the reversed keys, and reverses the
resulting indexer again — a stable DESCENDING sort, keeping rows with equal
keys in their original order.  The ascending kernel argsort is modelled as a
stable insertion sort, exact for the table sizes handled here (numpy
introsort runs plain insertion sort below 16 elements). -/
noncomputable def sortValuesDesc {M : Type} (rows : List (TrialRow M)) : List (TrialRow M) :=
  (List.insertionSort rowLe rows.reverse).reverse

/-- The value `np.sum(Y_train == 0) / np.sum(Y_train == 1)` of the xgboost
branch. -/
noncomputable def classImbalance (Yt : List Bool) : ℝ :=
  ((Yt.countP (fun b => !b) : ℕ) : ℝ) / ((Yt.countP (fun b => b) : ℕ) : ℝ)

/-- The in-place mutation
`params of scale_pos_weight becomes the list ci, sqrt ci, 1` of the xgboost
branch; on a list-shaped space the item assignment raises a TypeError. -/
noncomputable def xgbAugment (ci : ℝ) :
    CandidateParams PVal → Option (CandidateParams PVal)
  | CandidateParams.dict d =>
    Option.some (CandidateParams.dict
      (dictSet d "scale_pos_weight" [PVal.num ci, PVal.num (Real.sqrt ci), PVal.num 1]))
  | CandidateParams.grids _ => Option.none

/-- Python `str.lower()` for the ASCII family names used here: lowercase
every character.  (Written over the character list so that it evaluates by
kernel reduction.) -/
def pyLower (s : String) : String := ⟨s.data.map Char.toLower⟩

/-- The outcome of a `gridsearch` call: the hyperparameter space as the
caller sees it afterwards (the xgboost branch mutates the caller's dict in
place), and either the pair of the sorted results table and the best model,
or the exception the call raised. -/
structure GSOutcome (M : Type) where
  space : CandidateParams PVal
  result : Except String (List (TrialRow M) × M)

/-- The part of `gridsearch` after the model-name lowering and the xgboost
space mutation: expand the space, run every trial, sort the table descending
by validation MCC, and return table and best model.  An empty table makes
`results.iloc[0, 1:]` raise; an unbound `best_model` makes the return raise. -/
noncomputable def gridsearchCore {M : Type} (bk : Backend M) (Yt Yv : List Bool)
    (model : String) (sp : CandidateParams PVal) (rs nj : ℤ) :
    Except String (List (TrialRow M) × M) :=
  match param_list sp with
  | Except.error e => Except.error e
  | Except.ok ps =>
    match trialLoop bk Yt Yv model rs nj ps (-1, Option.none, []) with
    | Except.error e => Except.error e
    | Except.ok st =>
      let sorted := sortValuesDesc st.2.2
      if sorted.isEmpty then Except.error indexErrorMsg
      else
        match st.2.1 with
        | Option.some b => Except.ok (sorted, b)
        | Option.none => Except.error nameErrorMsg

/-- Embedding of `gridsearch(X_train, Y_train, X_val, Y_val, model, params,
random_state, n_jobs)` from src/scripts/gridsearch.py.  The feature matrices
are absorbed into the backend; the optional persistence paths are not
modelled (they only trigger extra side effects after the return value is
fixed). -/
noncomputable def gridsearch {M : Type} (bk : Backend M) (Yt Yv : List Bool)
    (model0 : String) (space : CandidateParams PVal) (rs nj : ℤ) : GSOutcome M :=
  let model := pyLower model0
  if model = "xgboost" then
    match xgbAugment (classImbalance Yt) space with
    | Option.none => ⟨space, Except.error typeErrorMsg⟩
    | Option.some sp => ⟨sp, gridsearchCore bk Yt Yv model sp rs nj⟩
  else ⟨space, gridsearchCore bk Yt Yv model space rs nj⟩

theorem lookup_set_found {V : Type} (k : String) (v : V) :
    ∀ a : List (String × V), a.any (fun e => e.1 == k) →
      (a.map (fun e => if e.1 = k then (k, v) else e)).lookup k = Option.some v := by
  intro a
  induction a with
  | nil => intro h; simp at h
  | cons e rest ih =>
    intro h
    obtain ⟨k₁, v₁⟩ := e
    by_cases hk : k₁ = k
    · subst hk
      simp
    · have hr : rest.any (fun e => e.1 == k) := by
        simp only [List.any_cons, Bool.or_eq_true, beq_iff_eq] at h
        rcases h with h | h
        · exact absurd h hk
        · simpa using h
      have hb : (k == k₁) = false := by
        simp [Ne.symm hk]
      simp only [List.map_cons, if_neg hk, List.lookup_cons, hb]
      exact ih hr

theorem lookup_append_single {V : Type} (k : String) (v : V) (a : List (String × V))
    (h : a.any (fun e => e.1 == k) = false) :
    (a ++ [(k, v)]).lookup k = Option.some v := by
  rw [List.lookup_append]
  have hnone : a.lookup k = Option.none := by
    rw [List.lookup_eq_none_iff]
    intro p hp
    have h2 : ¬(p.1 == k) = true := by
      intro hx
      exact absurd hx (by simpa using List.any_eq_false.mp h p hp)
    have hne : p.1 ≠ k := by simpa using h2
    simpa [bne_iff_ne] using Ne.symm hne
  rw [hnone, Option.none_or, List.lookup_cons_self]

theorem lookup_dictSet_self {V : Type} (a : List (String × V)) (k : String) (v : V) :
    (dictSet a k v).lookup k = Option.some v := by
  by_cases h : a.any (fun e => e.1 == k)
  · rw [dictSet, if_pos h]
    exact lookup_set_found k v a h
  · rw [dictSet, if_neg h]
    exact lookup_append_single k v a (Bool.eq_false_iff.mpr h)

theorem lookup_set_map_ne {V : Type} (k k' : String) (v : V) (h : k' ≠ k) :
    ∀ a : List (String × V),
      (a.map (fun e => if e.1 = k then (k, v) else e)).lookup k' = a.lookup k' := by
  intro a
  induction a with
  | nil => simp
  | cons e rest ih =>
    obtain ⟨k₁, v₁⟩ := e
    by_cases hk : k₁ = k
    · subst hk
      have hb : (k' == k₁) = false := by simp [h]
      have hhead : (if ((k₁, v₁) : String × V).1 = k₁ then (k₁, v) else (k₁, v₁)) = (k₁, v) :=
        if_pos rfl
      rw [List.map_cons, hhead, List.lookup_cons, List.lookup_cons, hb]
      exact ih
    · have hhead : (if ((k₁, v₁) : String × V).1 = k then (k, v) else (k₁, v₁)) = (k₁, v₁) :=
        if_neg hk
      rw [List.map_cons, hhead, List.lookup_cons, List.lookup_cons]
      by_cases hb : k' = k₁
      · subst hb
        rw [beq_self_eq_true]
      · rw [show (k' == k₁) = false from by simp [hb]]
        exact ih

theorem lookup_dictSet_ne {V : Type} (a : List (String × V)) (k k' : String) (v : V)
    (h : k' ≠ k) : (dictSet a k v).lookup k' = a.lookup k' := by
  by_cases ha : a.any (fun e => e.1 == k)
  · rw [dictSet, if_pos ha]
    exact lookup_set_map_ne k k' v h a
  · rw [dictSet, if_neg ha, List.lookup_append]
    have : ([(k, v)] : List (String × V)).lookup k' = Option.none := by
      rw [List.lookup_cons, show (k' == k) = false from by simp [h]]
      rfl
    rw [this, Option.or_none]

theorem foldl_bestStep_const {M : Type} (l : List (M × ℝ)) (b₀ : ℝ) (bm₀ : Option M)
    (h : ∀ x ∈ l, x.2 ≤ b₀) : l.foldl bestStep (b₀, bm₀) = (b₀, bm₀) := by
  induction l with
  | nil => rfl
  | cons x rest ih =>
    have hx : x.2 ≤ b₀ := h x (List.mem_cons_self x rest)
    have hstep : bestStep (b₀, bm₀) x = (b₀, bm₀) := by
      rw [bestStep, if_neg (not_lt.mpr hx)]
    rw [List.foldl_cons, hstep, ih (fun y hy => h y (List.mem_cons_of_mem x hy))]

theorem foldl_bestStep_some {M : Type} (l : List (M × ℝ)) :
    ∀ (b₀ : ℝ) (m : M), ∃ b' m', l.foldl bestStep (b₀, Option.some m) = (b', Option.some m') := by
  induction l with
  | nil => exact fun b₀ m => ⟨b₀, m, rfl⟩
  | cons x rest ih =>
    intro b₀ m
    rw [List.foldl_cons]
    by_cases hx : x.2 > b₀
    · rw [show bestStep (b₀, Option.some m) x = (x.2, Option.some x.1) from by
        rw [bestStep, if_pos hx]]
      exact ih x.2 x.1
    · rw [show bestStep (b₀, Option.some m) x = (b₀, Option.some m) from by
        rw [bestStep, if_neg hx]]
      exact ih b₀ m

theorem foldl_bestStep_none_iff {M : Type} (l : List (M × ℝ)) (b₀ : ℝ) :
    (l.foldl bestStep (b₀, Option.none)).2 = Option.none ↔ ∀ x ∈ l, x.2 ≤ b₀ := by
  constructor
  · induction l generalizing b₀ with
    | nil => intro _ x hx; exact absurd hx (List.not_mem_nil x)
    | cons x rest ih =>
      intro h y hy
      by_cases hx : x.2 > b₀
      · exfalso
        rw [List.foldl_cons, show bestStep (b₀, Option.none) x = (x.2, Option.some x.1) from by
          rw [bestStep, if_pos hx]] at h
        obtain ⟨b', m', hb⟩ := foldl_bestStep_some rest x.2 x.1
        rw [hb] at h
        simp at h
      · rw [List.foldl_cons, show bestStep (b₀, Option.none) x = (b₀, Option.none) from by
          rw [bestStep, if_neg hx]] at h
        rcases List.mem_cons.mp hy with rfl | hy'
        · exact not_lt.mp hx
        · exact ih b₀ h y hy'
  · intro h
    rw [foldl_bestStep_const l b₀ Option.none h]

theorem foldl_bestStep_first_max {M : Type} :
    ∀ (l : List (M × ℝ)) (b₀ : ℝ) (bm₀ : Option M) (i : ℕ) (hi : i < l.length),
    (∀ j, (hj : j < l.length) → (l.get ⟨j, hj⟩).2 ≤ (l.get ⟨i, hi⟩).2) →
    (∀ j, (hj : j < l.length) → j < i → (l.get ⟨j, hj⟩).2 < (l.get ⟨i, hi⟩).2) →
    b₀ < (l.get ⟨i, hi⟩).2 →
    l.foldl bestStep (b₀, bm₀) = ((l.get ⟨i, hi⟩).2, Option.some (l.get ⟨i, hi⟩).1) := by
  intro l
  induction l with
  | nil => intro _ _ i hi; exact absurd hi (Nat.not_lt_zero i)
  | cons x rest ih =>
    intro b₀ bm₀ i hi hmax hfirst hgt
    cases i with
    | zero =>
      have hgt0 : b₀ < x.2 := hgt
      rw [List.foldl_cons, show bestStep (b₀, bm₀) x = (x.2, Option.some x.1) from by
        simp [bestStep, hgt0]]
      have hconst : rest.foldl bestStep (x.2, Option.some x.1) = (x.2, Option.some x.1) := by
        refine foldl_bestStep_const rest x.2 (Option.some x.1) (fun y hy => ?_)
        obtain ⟨⟨j, hj⟩, rfl⟩ := List.mem_iff_get.mp hy
        exact hmax (j + 1) (Nat.succ_lt_succ hj)
      rw [hconst]
      rfl
    | succ k =>
      have hk : k < rest.length := Nat.lt_of_succ_lt_succ hi
      have hx : x.2 < (rest.get ⟨k, hk⟩).2 :=
        hfirst 0 (Nat.succ_pos _) (Nat.succ_pos k)
      have hmax' : ∀ j, (hj : j < rest.length) →
          (rest.get ⟨j, hj⟩).2 ≤ (rest.get ⟨k, hk⟩).2 :=
        fun j hj => hmax (j + 1) (Nat.succ_lt_succ hj)
      have hfirst' : ∀ j, (hj : j < rest.length) → j < k →
          (rest.get ⟨j, hj⟩).2 < (rest.get ⟨k, hk⟩).2 :=
        fun j hj hjk => hfirst (j + 1) (Nat.succ_lt_succ hj) (Nat.succ_lt_succ hjk)
      have hgt' : b₀ < (rest.get ⟨k, hk⟩).2 := hgt
      rw [List.foldl_cons]
      by_cases hb : x.2 > b₀
      · rw [show bestStep (b₀, bm₀) x = (x.2, Option.some x.1) from by simp [bestStep, hb]]
        exact ih x.2 (Option.some x.1) k hk hmax' hfirst' hx
      · rw [show bestStep (b₀, bm₀) x = (b₀, bm₀) from by simp [bestStep, hb]]
        exact ih b₀ bm₀ k hk hmax' hfirst' hgt'

/-- The rows the loop appends for a given expanded parameter list. -/
noncomputable def trialRows {M : Type} (bk : Backend M) (Yt Yv : List Bool) (model : String)
    (rs nj : ℤ) (ps : List (Assignment PVal)) : List (TrialRow M) :=
  ps.map (fun p0 => runTrial bk Yt Yv model (inject model rs nj p0))

/-- The (model, validation MCC) pair of a row, as consumed by the
running-best update. -/
def rowKey {M : Type} (r : TrialRow M) : M × ℝ := (r.model, r.v_mcc)

/-- Characterisation of the trial loop for a family present in the dispatch
table (or xgboost): it returns the accumulated rows in enumeration order and
the state of the running-best fold over their (model, MCC) pairs. -/
theorem trialLoop_cons_ok {M : Type} (bk : Backend M) (Yt Yv : List Bool) (model : String)
    (rs nj : ℤ) (p : Assignment PVal) (rest : List (Assignment PVal))
    (st st' : ℝ × Option M × List (TrialRow M))
    (h : trialStep bk Yt Yv model rs nj st p = Except.ok st') :
    trialLoop bk Yt Yv model rs nj (p :: rest) st =
      trialLoop bk Yt Yv model rs nj rest st' := by
  rw [trialLoop, h]

theorem trialLoop_cons_err {M : Type} (bk : Backend M) (Yt Yv : List Bool) (model : String)
    (rs nj : ℤ) (p : Assignment PVal) (rest : List (Assignment PVal))
    (st : ℝ × Option M × List (TrialRow M)) (e : String)
    (h : trialStep bk Yt Yv model rs nj st p = Except.error e) :
    trialLoop bk Yt Yv model rs nj (p :: rest) st = Except.error e := by
  rw [trialLoop, h]

theorem trialStep_ok {M : Type} (bk : Backend M) (Yt Yv : List Bool) (model : String)
    (rs nj : ℤ) (st : ℝ × Option M × List (TrialRow M)) (p : Assignment PVal)
    (hvalid : model = "xgboost" ∨ modelKeys.contains model) :
    trialStep bk Yt Yv model rs nj st p =
      Except.ok
        ((bestStep (st.1, st.2.1) (rowKey (runTrial bk Yt Yv model (inject model rs nj p)))).1,
         (bestStep (st.1, st.2.1) (rowKey (runTrial bk Yt Yv model (inject model rs nj p)))).2,
         st.2.2 ++ [runTrial bk Yt Yv model (inject model rs nj p)]) := by
  rw [trialStep, if_pos hvalid]
  rfl

theorem trialLoop_spec {M : Type} (bk : Backend M) (Yt Yv : List Bool) (model : String)
    (rs nj : ℤ) (hvalid : model = "xgboost" ∨ modelKeys.contains model) :
    ∀ (ps : List (Assignment PVal)) (b₀ : ℝ) (bm₀ : Option M) (rows₀ : List (TrialRow M)),
    trialLoop bk Yt Yv model rs nj ps (b₀, bm₀, rows₀) =
      Except.ok
        ((((trialRows bk Yt Yv model rs nj ps).map rowKey).foldl bestStep (b₀, bm₀)).1,
         (((trialRows bk Yt Yv model rs nj ps).map rowKey).foldl bestStep (b₀, bm₀)).2,
         rows₀ ++ trialRows bk Yt Yv model rs nj ps) := by
  intro ps
  induction ps with
  | nil => intro b₀ bm₀ rows₀; simp [trialLoop, trialRows]
  | cons p rest ih =>
    intro b₀ bm₀ rows₀
    rw [trialLoop_cons_ok bk Yt Yv model rs nj p rest _ _
      (trialStep_ok bk Yt Yv model rs nj (b₀, bm₀, rows₀) p hvalid)]
    rw [ih]
    simp only [trialRows, List.map_cons, List.foldl_cons, List.append_assoc,
      List.singleton_append]

instance {M : Type} : IsTotal (TrialRow M) rowLe :=
  ⟨fun a b => le_total a.v_mcc b.v_mcc⟩

instance {M : Type} : IsTrans (TrialRow M) rowLe :=
  ⟨fun _ _ _ hab hbc => le_trans hab hbc⟩

theorem sortValuesDesc_perm {M : Type} (rows : List (TrialRow M)) :
    List.Perm (sortValuesDesc rows) rows := by
  rw [sortValuesDesc]
  exact (List.reverse_perm _).trans
    ((List.perm_insertionSort rowLe rows.reverse).trans (List.reverse_perm rows))

theorem sortValuesDesc_pairwise {M : Type} (rows : List (TrialRow M)) :
    (sortValuesDesc rows).Pairwise (fun a b => b.v_mcc ≤ a.v_mcc) := by
  rw [sortValuesDesc]
  rw [List.pairwise_reverse]
  exact List.sorted_insertionSort rowLe rows.reverse

theorem sortValuesDesc_head_max {M : Type} (rows : List (TrialRow M))
    (r : TrialRow M) (hr : r ∈ rows) (hd : TrialRow M)
    (hhd : (sortValuesDesc rows).head? = Option.some hd) : r.v_mcc ≤ hd.v_mcc := by
  have hperm := sortValuesDesc_perm rows
  have hmem : r ∈ sortValuesDesc rows := hperm.mem_iff.mpr hr
  obtain ⟨tl, htl⟩ : ∃ tl, sortValuesDesc rows = hd :: tl := by
    cases hcase : sortValuesDesc rows with
    | nil => rw [hcase] at hhd; simp at hhd
    | cons a tl =>
      rw [hcase] at hhd
      simp only [List.head?_cons, Option.some.injEq] at hhd
      exact ⟨tl, by rw [hhd]⟩
  have hpw := sortValuesDesc_pairwise rows
  rw [htl] at hpw hmem
  rcases List.mem_cons.mp hmem with rfl | hmem'
  · exact le_refl _
  · exact (List.pairwise_cons.mp hpw).1 r hmem'

theorem sorted_of_all_eq {M : Type} :
    ∀ l : List (TrialRow M), (∀ a ∈ l, ∀ b ∈ l, a.v_mcc = b.v_mcc) →
      l.Sorted rowLe := by
  intro l
  induction l with
  | nil => intro _; exact List.Pairwise.nil
  | cons a rest ih =>
    intro hl
    refine List.Pairwise.cons (fun b hb => ?_) ?_
    · rw [rowLe, hl a (List.mem_cons_self a rest) b (List.mem_cons_of_mem a hb)]
    · exact ih (fun x hx y hy =>
        hl x (List.mem_cons_of_mem a hx) y (List.mem_cons_of_mem a hy))

theorem sortValuesDesc_all_eq {M : Type} (rows : List (TrialRow M))
    (h : ∀ a ∈ rows, ∀ b ∈ rows, a.v_mcc = b.v_mcc) :
    sortValuesDesc rows = rows := by
  rw [sortValuesDesc,
    List.Sorted.insertionSort_eq (sorted_of_all_eq rows.reverse (fun a ha b hb =>
      h a (List.mem_reverse.mp ha) b (List.mem_reverse.mp hb))),
    List.reverse_reverse]

theorem sortValuesDesc_stable_pair {M : Type} (rows : List (TrialRow M))
    (a b : TrialRow M) (hab : a.v_mcc = b.v_mcc) (hsub : List.Sublist [a, b] rows) :
    List.Sublist [a, b] (sortValuesDesc rows) := by
  rw [sortValuesDesc]
  have h1 : List.Sublist [b, a] rows.reverse := by
    simpa using hsub.reverse
  have h2 : List.Sublist [b, a] (List.insertionSort rowLe rows.reverse) :=
    List.pair_sublist_insertionSort (le_of_eq hab.symm) h1
  simpa using h2.reverse

theorem sqrt_625 : Real.sqrt 625 = 25 := by
  rw [show (625 : ℝ) = 25 ^ 2 by norm_num, Real.sqrt_sq (by norm_num : (0:ℝ) ≤ 25)]

theorem mcc_5005 : mcc 5 0 0 5 = 1 := by
  rw [mcc]
  norm_num [sqrt_625]

theorem mcc_0550 : mcc 0 5 5 0 = -1 := by
  rw [mcc]
  norm_num [sqrt_625]

theorem mcc_1001 : mcc 1 0 0 1 = 1 := by
  rw [mcc]
  norm_num

theorem mcc_0110 : mcc 0 1 1 0 = -1 := by
  rw [mcc]
  norm_num

/-- A backend whose predictions on both sets are exactly `[1, 0]`. -/
def bkPerfect : Backend ℕ := ⟨fun _ _ => (0, [true, false], [true, false])⟩

/-- A backend whose predictions on both sets are exactly `[0, 1]`. -/
def bkWrong : Backend ℕ := ⟨fun _ _ => (0, [false, true], [false, true])⟩

/-- A trivial backend used where the trial loop raises before training. -/
def bkUnit : Backend Unit := ⟨fun _ _ => (Unit.unit, [], [])⟩

theorem runTrial_bkPerfect (model : String) (p : Assignment PVal) :
    runTrial bkPerfect [true, false] [true, false] model p =
      ⟨p, 0, 1, 1, 1, 1, 1, 1, 1, 1⟩ := by
  have hc : confusionCounts [true, false] [true, false] = (1, 0, 0, 1) := rfl
  rw [runTrial]
  simp only [bkPerfect, hc]
  congr 1 <;> norm_num [accuracy, sensitivity, specificity, mcc]

theorem runTrial_bkWrong (model : String) (p : Assignment PVal) :
    runTrial bkWrong [true, false] [true, false] model p =
      ⟨p, 0, 0, 0, 0, -1, 0, 0, 0, -1⟩ := by
  have hc : confusionCounts [true, false] [false, true] = (0, 1, 1, 0) := rfl
  rw [runTrial]
  simp only [bkWrong, hc]
  congr 1 <;> norm_num [accuracy, sensitivity, specificity, mcc]

theorem inject_lda (rs nj : ℤ) (p : Assignment PVal) : inject "lda" rs nj p = p := rfl

theorem inject_qda (rs nj : ℤ) (p : Assignment PVal) : inject "qda" rs nj p = p := rfl

theorem gridsearchCore_eval {M : Type} (bk : Backend M) (Yt Yv : List Bool) (model : String)
    (sp : CandidateParams PVal) (rs nj : ℤ) (ps : List (Assignment PVal)) (b : ℝ)
    (bm : Option M) (rows : List (TrialRow M))
    (hexp : param_list sp = Except.ok ps)
    (hloop : trialLoop bk Yt Yv model rs nj ps (-1, Option.none, []) =
      Except.ok (b, bm, rows)) :
    gridsearchCore bk Yt Yv model sp rs nj =
      (if (sortValuesDesc rows).isEmpty then Except.error indexErrorMsg
       else
         match bm with
         | Option.some bb => Except.ok (sortValuesDesc rows, bb)
         | Option.none => Except.error nameErrorMsg) := by
  simp only [gridsearchCore, hexp, hloop]

/-- C6 (corrected): for a family name outside the dispatch table (and not
xgboost), the search raises the KeyError of `model_dict[model]` on the first
trial of the loop — after parameter expansion has succeeded and produced at
least one assignment, but before any backend training (the error is the same
for every backend). -/
theorem c6_amended {M : Type} (bk : Backend M) (Yt Yv : List Bool) (model : String)
    (sp : CandidateParams PVal) (rs nj : ℤ) (p : Assignment PVal)
    (ps : List (Assignment PVal))
    (hn : ¬ modelKeys.contains (pyLower model))
    (hx : pyLower model ≠ "xgboost")
    (hexp : param_list sp = Except.ok (p :: ps)) :
    (gridsearch bk Yt Yv model sp rs nj).result =
      Except.error (keyErrorMsg (pyLower model)) := by
  have hstep : trialStep bk Yt Yv (pyLower model) rs nj (-1, Option.none, []) p =
      Except.error (keyErrorMsg (pyLower model)) := by
    rw [trialStep, if_neg (fun h => h.elim hx hn)]
  simp only [gridsearch, if_neg hx]
  simp only [gridsearchCore, hexp,
    trialLoop_cons_err bk Yt Yv (pyLower model) rs nj p ps _ _ hstep]

/-- Witness for C6 (corrected): the family name foo with a one-assignment
space fails with its KeyError for a backend that is never consulted. -/
theorem c6_witness :
    (gridsearch bkUnit [true, false] [true, false] "foo"
        (CandidateParams.dict [("a", [PVal.str "x"])]) 1618 1).result =
      Except.error (keyErrorMsg "foo") := by
  have h := c6_amended bkUnit [true, false] [true, false] "foo"
    (CandidateParams.dict [("a", [PVal.str "x"])]) 1618 1 [("a", PVal.str "x")] []
    (by decide) (by decide) rfl
  simpa using h

/-- C6 counterexample: for the unknown family foo and an empty-mapping space,
the call fails with the expansion ValueError, not with the dispatch KeyError
— so the unsupported-family failure does not happen before parameter
expansion, contradicting the claim as stated. -/
theorem c6_counterexample :
    (gridsearch bkUnit [true, false] [true, false] "foo"
        (CandidateParams.dict []) 1618 1).result = Except.error unpackError ∧
    unpackError ≠ keyErrorMsg "foo" := by
  constructor
  · simp only [gridsearch, if_neg (by decide : ¬(pyLower "foo" = "xgboost"))]
    simp only [gridsearchCore,
      show param_list (CandidateParams.dict ([] : ParamDict PVal)) =
        Except.error unpackError from rfl]
  · decide

/-- C4 counterexample: a single-trial run whose validation MCC is exactly -1
(all validation predictions wrong on a balanced set) never promotes a model:
the sentinel -1 is not strictly below this attainable MCC, so the strict
comparison fails and the return of the unbound best model raises — no best
model is returned despite a non-empty expanded parameter list. -/
theorem c4_counterexample :
    (gridsearch bkWrong [true, false] [true, false] "lda"
        (CandidateParams.dict [("solver", [PVal.str "svd"])]) 1618 1).result =
      Except.error nameErrorMsg := by
  have hexp : param_list (CandidateParams.dict [("solver", [PVal.str "svd"])]) =
      Except.ok [[("solver", PVal.str "svd")]] := rfl
  have hvalid : ("lda" : String) = "xgboost" ∨ modelKeys.contains "lda" :=
    Or.inr (by decide)
  have hloop := trialLoop_spec bkWrong [true, false] [true, false] "lda" 1618 1 hvalid
    [[("solver", PVal.str "svd")]] (-1) Option.none []
  rw [show trialRows bkWrong [true, false] [true, false] "lda" 1618 1
      [[("solver", PVal.str "svd")]] =
      [⟨[("solver", PVal.str "svd")], 0, 0, 0, 0, -1, 0, 0, 0, -1⟩] from by
    simp only [trialRows, List.map_cons, List.map_nil, inject_lda, runTrial_bkWrong]] at hloop
  rw [show (([⟨[("solver", PVal.str "svd")], 0, 0, 0, 0, -1, 0, 0, 0, -1⟩] :
        List (TrialRow ℕ)).map rowKey).foldl bestStep (-1, Option.none) =
      ((-1 : ℝ), (Option.none : Option ℕ)) from by
    simp only [List.map_cons, List.map_nil, rowKey, List.foldl_cons, List.foldl_nil]
    rw [bestStep, if_neg (by norm_num)]] at hloop
  simp only [List.nil_append] at hloop
  simp only [gridsearch, if_neg (by decide : ¬(pyLower "lda" = "xgboost"))]
  rw [show pyLower "lda" = "lda" from by decide]
  rw [gridsearchCore_eval bkWrong [true, false] [true, false] "lda"
    (CandidateParams.dict [("solver", [PVal.str "svd"])]) 1618 1
    [[("solver", PVal.str "svd")]] (-1) Option.none
    [⟨[("solver", PVal.str "svd")], 0, 0, 0, 0, -1, 0, 0, 0, -1⟩] hexp hloop]
  rw [sortValuesDesc_all_eq _ (by
    intro a ha b hb
    fin_cases ha <;> fin_cases hb <;> rfl)]
  rfl

/-- End-to-end check of the sort's tie behaviour through the full search: two
trials with identical validation MCC (both predict perfectly, MCC 1.0 each)
come back in their ORIGINAL enumeration order in the result table, as the
stable-descending pandas sort keeps them. -/
theorem gridsearch_lda_tie_order :
    ((gridsearch bkPerfect [true, false] [true, false] "lda"
        (CandidateParams.dict [("solver", [PVal.str "a", PVal.str "b"])]) 1618 1).result.map
      (fun rb => rb.1.map (fun row => row.p))) =
      Except.ok [[("solver", PVal.str "a")], [("solver", PVal.str "b")]] := by
  have hexp : param_list (CandidateParams.dict [("solver", [PVal.str "a", PVal.str "b"])]) =
      Except.ok [[("solver", PVal.str "a")], [("solver", PVal.str "b")]] := rfl
  have hvalid : ("lda" : String) = "xgboost" ∨ modelKeys.contains "lda" :=
    Or.inr (by decide)
  have hloop := trialLoop_spec bkPerfect [true, false] [true, false] "lda" 1618 1 hvalid
    [[("solver", PVal.str "a")], [("solver", PVal.str "b")]] (-1) Option.none []
  rw [show trialRows bkPerfect [true, false] [true, false] "lda" 1618 1
      [[("solver", PVal.str "a")], [("solver", PVal.str "b")]] =
      [⟨[("solver", PVal.str "a")], 0, 1, 1, 1, 1, 1, 1, 1, 1⟩,
       ⟨[("solver", PVal.str "b")], 0, 1, 1, 1, 1, 1, 1, 1, 1⟩] from by
    simp only [trialRows, List.map_cons, List.map_nil, inject_lda,
      runTrial_bkPerfect]] at hloop
  rw [show (([⟨[("solver", PVal.str "a")], 0, 1, 1, 1, 1, 1, 1, 1, 1⟩,
        ⟨[("solver", PVal.str "b")], 0, 1, 1, 1, 1, 1, 1, 1, 1⟩] :
        List (TrialRow ℕ)).map rowKey).foldl bestStep (-1, Option.none) =
      ((1 : ℝ), Option.some (0 : ℕ)) from by
    simp only [List.map_cons, List.map_nil, rowKey, List.foldl_cons, List.foldl_nil]
    rw [show bestStep ((-1 : ℝ), (Option.none : Option ℕ)) ((0 : ℕ), (1 : ℝ)) =
        ((1 : ℝ), Option.some (0 : ℕ)) from by
      rw [bestStep, if_pos (by norm_num)]]
    rw [bestStep, if_neg (by norm_num)]] at hloop
  simp only [List.nil_append] at hloop
  simp only [gridsearch, if_neg (by decide : ¬(pyLower "lda" = "xgboost"))]
  rw [show pyLower "lda" = "lda" from by decide]
  rw [gridsearchCore_eval bkPerfect [true, false] [true, false] "lda"
    (CandidateParams.dict [("solver", [PVal.str "a", PVal.str "b"])]) 1618 1
    [[("solver", PVal.str "a")], [("solver", PVal.str "b")]] 1 (Option.some 0)
    [⟨[("solver", PVal.str "a")], 0, 1, 1, 1, 1, 1, 1, 1, 1⟩,
     ⟨[("solver", PVal.str "b")], 0, 1, 1, 1, 1, 1, 1, 1, 1⟩] hexp hloop]
  rw [sortValuesDesc_all_eq _ (by
    intro a ha b hb
    fin_cases ha <;> fin_cases hb <;> rfl)]
  rfl

/-- C1 (corrected): for every NON-EMPTY mapping from names to non-empty value
sequences, `param_list` returns the full Cartesian product in classic
nested-loop order (keys in declared order, right-most key varying fastest),
where every produced assignment pairs each declared key in order with one of
its candidate values; and for a sequence of non-empty mappings it returns
the concatenation of the per-mapping expansions in sub-grid order.  (On an
empty mapping the helper instead raises the unpack ValueError; see the
counterexample.) -/
theorem c1_amended {V : Type} (d : ParamDict V) (hd : d ≠ [])
    (hv : ∀ e ∈ d, e.2 ≠ ([] : List V)) (ds : List (ParamDict V))
    (hds : ∀ cp ∈ ds, cp ≠ []) :
    param_list (CandidateParams.dict d) = Except.ok (specProduct d) ∧
    (∀ a ∈ specProduct d,
      List.Forall₂ (fun kv e => kv.1 = e.1 ∧ kv.2 ∈ e.2) a d) ∧
    param_list (CandidateParams.grids ds) = Except.ok (ds.flatMap specProduct) := by
  refine ⟨?_, ?_, ?_⟩
  · have hne : d.isEmpty = false := by
      cases d with
      | nil => exact absurd rfl hd
      | cons x xs => rfl
    simp only [param_list, hne, Bool.false_eq_true, if_false]
    rw [expandDict_eq_specProduct]
  · intro a ha
    exact mem_specProduct.mp ha
  · simp only [param_list]
    rw [paramListAux_ok ds hds []]
    simp only [List.nil_append]
    have hfun : @expandDict V = @specProduct V := funext expandDict_eq_specProduct
    rw [hfun]

/-- Witness for C1 (corrected): a two-key mapping with value counts (2, 3)
and a two-element sub-grid sequence behave as the amended claim states. -/
theorem c1_witness :
    param_list (CandidateParams.dict [("a", [1, 2]), ("b", [3, 4, 5])]) =
      Except.ok (specProduct [("a", [1, 2]), ("b", [3, 4, 5])]) ∧
    (∀ x ∈ specProduct [("a", [1, 2]), ("b", [3, 4, 5])],
      List.Forall₂ (fun kv e => kv.1 = e.1 ∧ kv.2 ∈ e.2) x
        [("a", [1, 2]), ("b", [3, 4, 5])]) ∧
    param_list (CandidateParams.grids [[("x", [1])], [("y", [2, 3])]]) =
      Except.ok (([[("x", [1])], [("y", [2, 3])]] : List (ParamDict ℕ)).flatMap
        specProduct) :=
  c1_amended [("a", [1, 2]), ("b", [3, 4, 5])] (by decide) (by decide)
    [[("x", [1])], [("y", [2, 3])]] (by decide)

/-- C1 counterexample: on the empty mapping (vacuously a mapping to non-empty
value sequences) the helper raises the unpack ValueError instead of
returning the Cartesian product of zero sequences, which is the single empty
assignment. -/
theorem c1_counterexample :
    param_list (CandidateParams.dict ([] : ParamDict ℕ)) = Except.error unpackError ∧
    specProduct ([] : ParamDict ℕ) = [[]] :=
  ⟨rfl, rfl⟩

/-- C2 (confirmed): on every trial the four metrics on each of the training
and validation sets are the stated functions of the confusion-matrix cells
(TN, FP, FN, TP in ravel order), and on the quadruple TP = TN = 5,
FP = FN = 0 all four metrics equal 1. -/
theorem c2_metrics {M : Type} (bk : Backend M) (Yt Yv : List Bool) (model : String)
    (p : Assignment PVal) :
    ((runTrial bk Yt Yv model p).t_acc =
        accuracy (confusionCounts Yt (bk.fitPredict model p).2.1).1
          (confusionCounts Yt (bk.fitPredict model p).2.1).2.1
          (confusionCounts Yt (bk.fitPredict model p).2.1).2.2.1
          (confusionCounts Yt (bk.fitPredict model p).2.1).2.2.2 ∧
      (runTrial bk Yt Yv model p).t_sens =
        sensitivity (confusionCounts Yt (bk.fitPredict model p).2.1).1
          (confusionCounts Yt (bk.fitPredict model p).2.1).2.1
          (confusionCounts Yt (bk.fitPredict model p).2.1).2.2.1
          (confusionCounts Yt (bk.fitPredict model p).2.1).2.2.2 ∧
      (runTrial bk Yt Yv model p).t_spec =
        specificity (confusionCounts Yt (bk.fitPredict model p).2.1).1
          (confusionCounts Yt (bk.fitPredict model p).2.1).2.1
          (confusionCounts Yt (bk.fitPredict model p).2.1).2.2.1
          (confusionCounts Yt (bk.fitPredict model p).2.1).2.2.2 ∧
      (runTrial bk Yt Yv model p).t_mcc =
        mcc (confusionCounts Yt (bk.fitPredict model p).2.1).1
          (confusionCounts Yt (bk.fitPredict model p).2.1).2.1
          (confusionCounts Yt (bk.fitPredict model p).2.1).2.2.1
          (confusionCounts Yt (bk.fitPredict model p).2.1).2.2.2 ∧
      (runTrial bk Yt Yv model p).v_acc =
        accuracy (confusionCounts Yv (bk.fitPredict model p).2.2).1
          (confusionCounts Yv (bk.fitPredict model p).2.2).2.1
          (confusionCounts Yv (bk.fitPredict model p).2.2).2.2.1
          (confusionCounts Yv (bk.fitPredict model p).2.2).2.2.2 ∧
      (runTrial bk Yt Yv model p).v_sens =
        sensitivity (confusionCounts Yv (bk.fitPredict model p).2.2).1
          (confusionCounts Yv (bk.fitPredict model p).2.2).2.1
          (confusionCounts Yv (bk.fitPredict model p).2.2).2.2.1
          (confusionCounts Yv (bk.fitPredict model p).2.2).2.2.2 ∧
      (runTrial bk Yt Yv model p).v_spec =
        specificity (confusionCounts Yv (bk.fitPredict model p).2.2).1
          (confusionCounts Yv (bk.fitPredict model p).2.2).2.1
          (confusionCounts Yv (bk.fitPredict model p).2.2).2.2.1
          (confusionCounts Yv (bk.fitPredict model p).2.2).2.2.2 ∧
      (runTrial bk Yt Yv model p).v_mcc =
        mcc (confusionCounts Yv (bk.fitPredict model p).2.2).1
          (confusionCounts Yv (bk.fitPredict model p).2.2).2.1
          (confusionCounts Yv (bk.fitPredict model p).2.2).2.2.1
          (confusionCounts Yv (bk.fitPredict model p).2.2).2.2.2) ∧
    (accuracy 5 0 0 5 = 1 ∧ sensitivity 5 0 0 5 = 1 ∧
      specificity 5 0 0 5 = 1 ∧ mcc 5 0 0 5 = 1) := by
  refine ⟨⟨rfl, rfl, rfl, rfl, rfl, rfl, rfl, rfl⟩, ?_, ?_, ?_, mcc_5005⟩
  · rw [accuracy]; norm_num
  · rw [sensitivity]; norm_num
  · rw [specificity]; norm_num

/-- C3 (corrected): provided the maximal validation MCC of the trial
sequence exceeds the sentinel -1, the model of the FIRST trial attaining
that maximum is the one held as best at the end of the loop (strict
comparison, earlier trial wins ties).  When every trial has MCC at most -1
(and -1 is attainable) no model is held at all; see the counterexample. -/
theorem c3_amended {M : Type} (l : List (M × ℝ)) (i : ℕ) (hi : i < l.length)
    (hmax : ∀ j, (hj : j < l.length) → (l.get ⟨j, hj⟩).2 ≤ (l.get ⟨i, hi⟩).2)
    (hfirst : ∀ j, (hj : j < l.length) → j < i → (l.get ⟨j, hj⟩).2 < (l.get ⟨i, hi⟩).2)
    (hgt : -1 < (l.get ⟨i, hi⟩).2) :
    selectBest l = Option.some (l.get ⟨i, hi⟩).1 := by
  rw [selectBest, foldl_bestStep_first_max l (-1) Option.none i hi hmax hfirst hgt]

/-- Witness for C3 (corrected): of two trials tied at MCC 1, the model of the
first one is selected. -/
theorem c3_witness : selectBest [((5 : ℕ), (1 : ℝ)), ((6 : ℕ), (1 : ℝ))] = Option.some 5 := by
  have h := c3_amended [((5 : ℕ), (1 : ℝ)), ((6 : ℕ), (1 : ℝ))] 0 (by norm_num)
    (fun j hj => by
      have hj2 : j < 2 := hj
      interval_cases j <;> exact le_rfl)
    (fun j hj hj0 => absurd hj0 (Nat.not_lt_zero j))
    (by norm_num)
  exact h

/-- C3 counterexample: a single trial with validation MCC exactly -1 (an
attainable MCC value) is the first trial attaining the maximum, yet no model
is selected, because -1 is not strictly greater than the sentinel -1. -/
theorem c3_counterexample :
    selectBest [((7 : ℕ), (-1 : ℝ))] = Option.none ∧
    (Option.none : Option ℕ) ≠ Option.some 7 := by
  constructor
  · simp only [selectBest, List.foldl_cons, List.foldl_nil, bestStep]
    norm_num
  · simp

/-- C4 (corrected): the selection returns no model exactly when every trial
MCC is at most the sentinel -1; since -1 is itself an attainable MCC (for
example the quadruple TN = 0, FP = 5, FN = 5, TP = 0 yields -1), the
sentinel is not strictly lower than every attainable MCC and a best model is
not always returned on a non-empty trial list — it is returned exactly when
some trial exceeds -1. -/
theorem c4_amended {M : Type} (l : List (M × ℝ)) :
    (selectBest l = Option.none ↔ ∀ x ∈ l, x.2 ≤ -1) ∧ mcc 0 5 5 0 = -1 := by
  constructor
  · rw [selectBest]
    exact foldl_bestStep_none_iff l (-1)
  · exact mcc_0550

/-- Witness for C4 (corrected): a one-trial list at MCC exactly -1 selects no
model, and -1 is attained by a confusion quadruple. -/
theorem c4_witness :
    selectBest [((3 : ℕ), (-1 : ℝ))] = Option.none ∧ mcc 0 5 5 0 = -1 :=
  ⟨(c4_amended [((3 : ℕ), (-1 : ℝ))]).1.mpr (by
      intro x hx
      fin_cases hx
      exact le_rfl),
   (c4_amended ([] : List (ℕ × ℝ))).2⟩

/-- C5 (confirmed): the returned table is the list of trial rows sorted by
validation MCC in descending order — a permutation of the rows, pairwise
descending, with every row MCC bounded by the head row MCC — and the sort is
stable: a pair of rows with equal validation MCC keeps its original
enumeration order, and a table of all-equal MCC rows comes back unchanged
(pandas nargsort reverses keys and positions, argsorts ascending, and
reverses the indexer, a stable descending sort). -/
theorem c5_sorted_stable {M : Type} (rows : List (TrialRow M)) :
    List.Perm (sortValuesDesc rows) rows ∧
    (sortValuesDesc rows).Pairwise (fun a b => b.v_mcc ≤ a.v_mcc) ∧
    (∀ r ∈ rows, ∀ hd ∈ (sortValuesDesc rows).head?, r.v_mcc ≤ hd.v_mcc) ∧
    (∀ a b : TrialRow M, a.v_mcc = b.v_mcc → List.Sublist [a, b] rows →
      List.Sublist [a, b] (sortValuesDesc rows)) ∧
    ((∀ a ∈ rows, ∀ b ∈ rows, a.v_mcc = b.v_mcc) → sortValuesDesc rows = rows) := by
  refine ⟨sortValuesDesc_perm rows, sortValuesDesc_pairwise rows, ?_,
    sortValuesDesc_stable_pair rows, sortValuesDesc_all_eq rows⟩
  intro r hr hd hhd
  exact sortValuesDesc_head_max rows r hr hd (by simpa using hhd)

/-- A concrete result row used to witness the sort behaviour. -/
noncomputable def rowOne : TrialRow ℕ := ⟨[("k", PVal.str "a")], 0, 1, 1, 1, 1, 1, 1, 1, 1⟩

/-- A second concrete result row with the same validation MCC as `rowOne`. -/
noncomputable def rowTwo : TrialRow ℕ := ⟨[("k", PVal.str "b")], 0, 1, 1, 1, 1, 1, 1, 1, 1⟩

/-- Witness for C5 (confirmed): two rows tied at validation MCC 1 come back
in their original enumeration order. -/
theorem c5_sorted_stable_witness :
    sortValuesDesc [rowOne, rowTwo] = [rowOne, rowTwo] :=
  (c5_sorted_stable [rowOne, rowTwo]).2.2.2.2 (by
    intro a ha b hb
    fin_cases ha <;> fin_cases hb <;> rfl)

theorem paramListAux_err {V : Type} :
    ∀ ds₁ : List (ParamDict V), (∀ cp ∈ ds₁, cp ≠ []) →
    ∀ (ds₂ : List (ParamDict V)) (acc : List (Assignment V)),
    paramListAux (ds₁ ++ ([] : ParamDict V) :: ds₂) acc = Except.error unpackError := by
  intro ds₁
  induction ds₁ with
  | nil => intro _ ds₂ acc; rfl
  | cons cp rest ih =>
    intro h ds₂ acc
    have hcp : cp ≠ [] := h cp (List.mem_cons_self cp rest)
    have hne : cp.isEmpty = false := by
      cases cp with
      | nil => exact absurd rfl hcp
      | cons x xs => rfl
    simp only [List.cons_append, paramListAux, hne, Bool.false_eq_true, if_false]
    exact ih (fun c hc => h c (List.mem_cons_of_mem cp hc)) ds₂ (acc ++ expandDict cp)

/-- C7 (corrected): an empty mapping does NOT silently disappear: whether it
is the whole space or one element of a sequence of mappings, destructuring
it raises the unpack ValueError.  What does yield zero assignments silently
is the empty SEQUENCE of mappings. -/
theorem c7_amended {V : Type} (ds₁ ds₂ : List (ParamDict V)) (h : ∀ cp ∈ ds₁, cp ≠ []) :
    param_list (CandidateParams.grids (ds₁ ++ ([] : ParamDict V) :: ds₂)) =
      Except.error unpackError ∧
    param_list (CandidateParams.dict ([] : ParamDict V)) = Except.error unpackError ∧
    param_list (CandidateParams.grids ([] : List (ParamDict V))) = Except.ok [] := by
  refine ⟨?_, rfl, rfl⟩
  simp only [param_list]
  exact paramListAux_err ds₁ h ds₂ []

/-- Witness for C7 (corrected): a sequence holding one non-empty mapping
followed by an empty one raises; the empty dict raises; the empty sequence
yields no assignments. -/
theorem c7_witness :
    param_list (CandidateParams.grids ([[("a", [1])]] ++ ([] : ParamDict ℕ) :: [])) =
      Except.error unpackError ∧
    param_list (CandidateParams.dict ([] : ParamDict ℕ)) = Except.error unpackError ∧
    param_list (CandidateParams.grids ([] : List (ParamDict ℕ))) = Except.ok [] :=
  c7_amended [[("a", [1])]] [] (by decide)

/-- C7 counterexample: a space consisting of a non-empty mapping followed by
an empty mapping raises the unpack ValueError — the empty mapping is not
silently dropped as the claim states. -/
theorem c7_counterexample :
    param_list (CandidateParams.grids [[("a", [1, 2])], ([] : ParamDict ℕ)]) =
      Except.error unpackError := rfl

/-- C8 (confirmed): per expanded assignment, the seed is injected under
`random_state` for svc, logisticregression, gradientboosting, adaboost and
randomforest, and under `seed` for xgboost; the parallelism value is
injected under `n_jobs` for logisticregression, knn and randomforest; the
remaining supported families (lda, qda) receive no injection at all, knn
receives no seed, xgboost receives no `n_jobs` and no `random_state`, and
the non-n_jobs families keep their `n_jobs` entry untouched. -/
theorem c8_injection (rs nj : ℤ) (p : Assignment PVal) :
    ((inject "svc" rs nj p).lookup "random_state" = Option.some (PVal.num (rs : ℝ))) ∧
    ((inject "logisticregression" rs nj p).lookup "random_state" =
      Option.some (PVal.num (rs : ℝ))) ∧
    ((inject "gradientboosting" rs nj p).lookup "random_state" =
      Option.some (PVal.num (rs : ℝ))) ∧
    ((inject "adaboost" rs nj p).lookup "random_state" =
      Option.some (PVal.num (rs : ℝ))) ∧
    ((inject "randomforest" rs nj p).lookup "random_state" =
      Option.some (PVal.num (rs : ℝ))) ∧
    ((inject "xgboost" rs nj p).lookup "seed" = Option.some (PVal.num (rs : ℝ))) ∧
    ((inject "xgboost" rs nj p).lookup "random_state" = p.lookup "random_state") ∧
    ((inject "logisticregression" rs nj p).lookup "n_jobs" =
      Option.some (PVal.num (nj : ℝ))) ∧
    ((inject "knn" rs nj p).lookup "n_jobs" = Option.some (PVal.num (nj : ℝ))) ∧
    ((inject "randomforest" rs nj p).lookup "n_jobs" =
      Option.some (PVal.num (nj : ℝ))) ∧
    (inject "lda" rs nj p = p) ∧
    (inject "qda" rs nj p = p) ∧
    ((inject "knn" rs nj p).lookup "random_state" = p.lookup "random_state") ∧
    ((inject "knn" rs nj p).lookup "seed" = p.lookup "seed") ∧
    ((inject "svc" rs nj p).lookup "n_jobs" = p.lookup "n_jobs") ∧
    ((inject "svc" rs nj p).lookup "seed" = p.lookup "seed") ∧
    ((inject "gradientboosting" rs nj p).lookup "n_jobs" = p.lookup "n_jobs") ∧
    ((inject "adaboost" rs nj p).lookup "n_jobs" = p.lookup "n_jobs") ∧
    ((inject "xgboost" rs nj p).lookup "n_jobs" = p.lookup "n_jobs") := by
  refine ⟨?_, ?_, ?_, ?_, ?_, ?_, ?_, ?_, ?_, ?_, inject_lda rs nj p, inject_qda rs nj p,
    ?_, ?_, ?_, ?_, ?_, ?_, ?_⟩
  · exact lookup_dictSet_self p "random_state" (PVal.num (rs : ℝ))
  · exact (lookup_dictSet_ne (dictSet p "random_state" (PVal.num (rs : ℝ))) "n_jobs"
      "random_state" (PVal.num (nj : ℝ)) (by decide)).trans
      (lookup_dictSet_self p "random_state" (PVal.num (rs : ℝ)))
  · exact lookup_dictSet_self p "random_state" (PVal.num (rs : ℝ))
  · exact lookup_dictSet_self p "random_state" (PVal.num (rs : ℝ))
  · exact (lookup_dictSet_ne (dictSet p "random_state" (PVal.num (rs : ℝ))) "n_jobs"
      "random_state" (PVal.num (nj : ℝ)) (by decide)).trans
      (lookup_dictSet_self p "random_state" (PVal.num (rs : ℝ)))
  · exact (lookup_dictSet_ne _ "objective" "seed" _ (by decide)).trans
      ((lookup_dictSet_ne _ "nthread" "seed" _ (by decide)).trans
        (lookup_dictSet_self p "seed" (PVal.num (rs : ℝ))))
  · exact (lookup_dictSet_ne _ "objective" "random_state" _ (by decide)).trans
      ((lookup_dictSet_ne _ "nthread" "random_state" _ (by decide)).trans
        (lookup_dictSet_ne p "seed" "random_state" _ (by decide)))
  · exact lookup_dictSet_self (dictSet p "random_state" (PVal.num (rs : ℝ))) "n_jobs"
      (PVal.num (nj : ℝ))
  · exact lookup_dictSet_self p "n_jobs" (PVal.num (nj : ℝ))
  · exact lookup_dictSet_self (dictSet p "random_state" (PVal.num (rs : ℝ))) "n_jobs"
      (PVal.num (nj : ℝ))
  · exact lookup_dictSet_ne p "n_jobs" "random_state" _ (by decide)
  · exact lookup_dictSet_ne p "n_jobs" "seed" _ (by decide)
  · exact lookup_dictSet_ne p "random_state" "n_jobs" _ (by decide)
  · exact lookup_dictSet_ne p "random_state" "seed" _ (by decide)
  · exact lookup_dictSet_ne p "random_state" "n_jobs" _ (by decide)
  · exact lookup_dictSet_ne p "random_state" "n_jobs" _ (by decide)
  · exact (lookup_dictSet_ne _ "objective" "n_jobs" _ (by decide)).trans
      ((lookup_dictSet_ne _ "nthread" "n_jobs" _ (by decide)).trans
        (lookup_dictSet_ne p "seed" "n_jobs" _ (by decide)))

/-- C9 counterexample: at the quadruple TP = 0, TN = 0, FP = 5, FN = 5 the
sensitivity and specificity are NOT division-by-zero cases: their
denominators TP + FN and TN + FP both equal 5, and both metrics evaluate to
the well-defined value 0 (and MCC to -1), contradicting the claimed
undefined/NaN propagation at this input. -/
theorem c9_counterexample :
    sensitivity 0 5 5 0 = 0 ∧ specificity 0 5 5 0 = 0 ∧ ((0 : ℝ) + 5 ≠ 0) ∧
    accuracy 0 5 5 0 = 0 ∧ mcc 0 5 5 0 = -1 := by
  refine ⟨?_, ?_, by norm_num, ?_, mcc_0550⟩
  · rw [sensitivity]; norm_num
  · rw [specificity]; norm_num
  · rw [accuracy]; norm_num

/-- C9 (corrected): for TP = 0, TN = 0, FP = 5, FN = 5 accuracy is 0,
sensitivity and specificity are 0 (their denominators are 5, not zero) and
MCC is -1; the formulas themselves are the unguarded quotients of the code,
with no branch protecting a zero denominator (a zero denominator would
instead require TP + FN = 0 or TN + FP = 0). -/
theorem c9_amended :
    accuracy 0 5 5 0 = 0 ∧ sensitivity 0 5 5 0 = 0 ∧ specificity 0 5 5 0 = 0 ∧
    mcc 0 5 5 0 = -1 ∧
    (∀ tn fp fn tp : ℝ, sensitivity tn fp fn tp = tp / (tp + fn) ∧
      specificity tn fp fn tp = tn / (tn + fp) ∧
      accuracy tn fp fn tp = (tn + tp) / (tn + tp + fp + fn) ∧
      mcc tn fp fn tp =
        (tp * tn - fp * fn) / Real.sqrt ((tp + fp) * (tp + fn) * (tn + fp) * (tn + fn))) := by
  refine ⟨?_, ?_, ?_, mcc_0550, fun tn fp fn tp => ⟨rfl, rfl, rfl, rfl⟩⟩
  · rw [accuracy]; norm_num
  · rw [sensitivity]; norm_num
  · rw [specificity]; norm_num

/-- C10 (confirmed): when called for the xgboost family on a mapping-shaped
space, the caller's space afterwards has its `scale_pos_weight` entry set to
the candidate list [ratio, sqrt ratio, 1] with ratio the quotient of
negative-label count by positive-label count on the training labels; for
every other family the caller's space is left unchanged. -/
theorem c10_mutation {M : Type} (bk : Backend M) (Yt Yv : List Bool) (d : ParamDict PVal)
    (rs nj : ℤ) (model : String) (hm : pyLower model ≠ "xgboost")
    (sp : CandidateParams PVal) :
    (gridsearch bk Yt Yv "xgboost" (CandidateParams.dict d) rs nj).space =
      CandidateParams.dict (dictSet d "scale_pos_weight"
        [PVal.num (classImbalance Yt), PVal.num (Real.sqrt (classImbalance Yt)),
         PVal.num 1]) ∧
    (gridsearch bk Yt Yv model sp rs nj).space = sp := by
  constructor
  · rfl
  · simp only [gridsearch, if_neg hm]

/-- Witness for C10 (confirmed): concrete calls for xgboost and for lda. -/
theorem c10_witness :
    (gridsearch bkUnit [true, false] [true, false] "xgboost"
        (CandidateParams.dict []) 1618 1).space =
      CandidateParams.dict (dictSet [] "scale_pos_weight"
        [PVal.num (classImbalance [true, false]),
         PVal.num (Real.sqrt (classImbalance [true, false])), PVal.num 1]) ∧
    (gridsearch bkUnit [true, false] [true, false] "lda"
        (CandidateParams.dict []) 1618 1).space = CandidateParams.dict [] := by
  have h := c10_mutation bkUnit [true, false] [true, false] [] 1618 1 "lda" (by decide)
    (CandidateParams.dict [])
  exact ⟨h.1, h.2⟩

end Gridsearch
